import Mathlib

/-!
Verification development for the GetCourse / Vimeo video download engine
(`offscreen.js`): URL classification, playlist resolution, adaptive-manifest
track selection, segment fetching with retries and cancellation, and the
per-identity job registry.

The JavaScript source is embedded shallowly: pure functions become Lean
functions over `String` / `List` data; the stateful download pipeline becomes
explicit state passing; fallible operations return `Option` / `Except`.
JavaScript numbers that hold integral quality metadata are modelled as `Int`
(`none` in an `Option Int` field models an absent or non-finite value).
-/

namespace GVD

/-! ## Generic string helpers

The JavaScript code relies on host string primitives (`includes`, regular
expressions, `String.prototype.trim`, `new URL`).  These are modelled here over
`List Char`, restricted to the behaviours the code exercises.  -/

/-- Boolean infix test on lists (model of JS `String.prototype.includes` after
`toList`). -/
def listContainsSeq (pat : List Char) : List Char → Bool
  | [] => pat.isEmpty
  | c :: rest => List.isPrefixOf pat (c :: rest) || listContainsSeq pat rest

/-- Model of JS `String.prototype.includes`. -/
def jsIncludes (s pat : String) : Bool :=
  listContainsSeq pat.toList s.toList

/-- Split a character list at every occurrence of the character `sep`. -/
def splitOnChar (sep : Char) : List Char → List (List Char)
  | [] => [[]]
  | c :: rest =>
    let r := splitOnChar sep rest
    if c = sep then [] :: r
    else
      match r with
      | [] => [[c]]
      | h :: t => (c :: h) :: t

/-- Split at the first occurrence of the sequence `sep`, returning the parts
before and after it (model of `indexOf` + `slice`). -/
def splitFirstSeq (sep : List Char) : List Char → Option (List Char × List Char)
  | [] => if sep.isEmpty then some ([], []) else none
  | c :: rest =>
    if List.isPrefixOf sep (c :: rest) then some ([], (c :: rest).drop sep.length)
    else
      match splitFirstSeq sep rest with
      | some (pre, post) => some (c :: pre, post)
      | none => none

/-- The whitespace class of JS regular expressions (`\s`) and `trim`,
restricted to the code points that can appear here. -/
def isJsWs (c : Char) : Bool :=
  c = ' ' || c = '\t' || c = '\n' || c = '\r' ||
  c = '\x0b' || c = '\x0c' || c = ' ' || c = '﻿'

/-- Drop leading and trailing JS whitespace (model of `String.prototype.trim`). -/
def jsTrimChars (cs : List Char) : List Char :=
  ((cs.dropWhile isJsWs).reverse.dropWhile isJsWs).reverse

/-- Model of `String.prototype.trim` on strings. -/
def jsTrim (s : String) : String :=
  String.mk (jsTrimChars s.toList)

/-- Collapse each maximal run of JS whitespace to a single space (model of
`replace(/\s+/g, " ")`).  The flag records whether the previous character
belonged to a whitespace run. -/
def collapseWsAux : Bool → List Char → List Char
  | _, [] => []
  | prevWs, c :: rest =>
    if isJsWs c then
      (if prevWs then [] else [' ']) ++ collapseWsAux true rest
    else
      c :: collapseWsAux false rest

/-! ## URL model

`offscreen.js` calls the WHATWG `new URL(input, base)` constructor.  The model
below implements the fragment of URL parsing and relative-reference resolution
that the extension exercises: absolute `scheme://host/path?query` URLs,
scheme-relative (`//…`), path-absolute (`/…`) and path-relative references
against an `http(s)` base.  Hosts and schemes are lower-cased as the URL
standard requires. -/

structure ParsedUrl where
  scheme : String
  host : String
  pathname : String
  query : String
deriving DecidableEq, Repr

/-- Characters allowed in a URL scheme after the first letter. -/
def isSchemeChar (c : Char) : Bool :=
  c.isAlpha || c.isDigit || c = '+' || c = '-' || c = '.'

/-- Does the string begin with `scheme:` (so that `new URL` would treat it as
an absolute reference)? -/
def startsWithScheme (cs : List Char) : Bool :=
  match cs with
  | [] => false
  | c :: rest => c.isAlpha && ((rest.takeWhile isSchemeChar).length + 1 < cs.length &&
      cs.get? ((rest.takeWhile isSchemeChar).length + 1) = some ':')

/-- Parse an absolute `scheme://host/path?query` URL. -/
def parseUrl (s : String) : Option ParsedUrl :=
  match splitFirstSeq [':', '/', '/'] s.toList with
  | none => none
  | some (schemeCs, restCs) =>
    match schemeCs with
    | [] => none
    | c0 :: cRest =>
      if c0.isAlpha && cRest.all isSchemeChar then
        let hostCs := restCs.takeWhile (fun c => c ≠ '/' && c ≠ '?' && c ≠ '#')
        if hostCs.isEmpty then none
        else
          let afterHost := restCs.drop hostCs.length
          let pathCs := afterHost.takeWhile (fun c => c ≠ '?' && c ≠ '#')
          let afterPath := afterHost.drop pathCs.length
          let queryCs :=
            match afterPath with
            | '?' :: qs => qs.takeWhile (fun c => c ≠ '#')
            | _ => []
          some {
            scheme := String.mk ((c0 :: cRest).map Char.toLower)
            host := String.mk (hostCs.map Char.toLower)
            pathname := if pathCs.isEmpty then "/" else String.mk pathCs
            query := String.mk queryCs
          }
      else none

/-- The directory part of a path: everything up to and including the last
slash. -/
def pathDirname (path : String) : String :=
  let cs := path.toList
  let afterLastSlash := (cs.reverse.takeWhile (fun c => c ≠ '/')).length
  let dir := cs.take (cs.length - afterLastSlash)
  if dir.isEmpty then "/" else String.mk dir

/-- Model of `new URL(line, baseUrl).toString()` wrapped in `try`/`catch`
(the source's `resolveUrl`): `none` models a constructor throw. -/
def resolveUrl (line baseUrl : String) : Option String :=
  let cs := line.toList
  if startsWithScheme cs then
    -- absolute reference: returned as written (normalisation not modelled)
    some line
  else
    match parseUrl baseUrl with
    | none => none
    | some base =>
      match cs with
      | '/' :: '/' :: _ => some (base.scheme ++ ":" ++ line)
      | '/' :: _ => some (base.scheme ++ "://" ++ base.host ++ line)
      | [] => some (base.scheme ++ "://" ++ base.host ++ base.pathname ++
          (if base.query = "" then "" else "?" ++ base.query))
      | _ => some (base.scheme ++ "://" ++ base.host ++ pathDirname base.pathname ++ line)

/-- Source `isHttpUrl`: test of `/^https?:\/\//i`. -/
def isHttpUrl (urlString : String) : Bool :=
  List.isPrefixOf "http://".toList (urlString.toList.map Char.toLower) ||
  List.isPrefixOf "https://".toList (urlString.toList.map Char.toLower)

/-! ## Segmented-playlist resolver (`resolveSegmentUrlsFromPlaylistUrl`) -/

/-- Source `splitPlaylistLines`: split on line breaks, trim every line, drop
empty lines. -/
def splitPlaylistLines (text : String) : List String :=
  (((splitOnChar '\n' text.toList).map (fun l => String.mk (jsTrimChars l))).filter
    (fun l => l.length > 0))

/-- Source `isCommentLine`. -/
def isCommentLine (line : String) : Bool :=
  List.isPrefixOf ['#'] line.toList

/-- Source `isLikelySegmentLine`: test of `/(?:\.ts|\.bin)(?:\?|$)/i`, i.e. the
line contains `.ts?` or `.bin?`, or ends with `.ts` or `.bin`
(case-insensitively). -/
def isLikelySegmentLine (line : String) : Bool :=
  let l := line.toList.map Char.toLower
  listContainsSeq ".ts?".toList l || listContainsSeq ".bin?".toList l ||
  List.isSuffixOf ".ts".toList l || List.isSuffixOf ".bin".toList l

/-- Source `getLastContentLine`: scan from the end for the first non-comment
line. -/
def getLastContentLine (lines : List String) : Option String :=
  lines.reverse.find? (fun l => !isCommentLine l)

/-- The capture of `URI="([^"]+)"` when the character list begins with
(case-insensitive) `uri="` followed by a non-empty run of non-quote characters
and a closing quote. -/
def uriCaptureAt (cs : List Char) : Option (List Char) :=
  if List.isPrefixOf "uri=\"".toList (cs.map Char.toLower) then
    let after := cs.drop 5
    let body := after.takeWhile (fun c => c ≠ '"')
    if body.isEmpty then none
    else if body.length < after.length then some body else none
  else none

/-- The last position at which `URI="([^"]+)"` matches: the greedy `.*` in the
source regex makes the rightmost occurrence win. -/
def lastUriCapture : List Char → Option (List Char)
  | [] => none
  | c :: rest =>
    match lastUriCapture rest with
    | some r => some r
    | none => uriCaptureAt (c :: rest)

/-- Model of the source regex `/^#EXT-X-MAP:.*URI="([^"]+)"/i` applied to one
directive line. -/
def extXMapUri (line : String) : Option String :=
  if List.isPrefixOf "#ext-x-map:".toList (line.toList.map Char.toLower) then
    (lastUriCapture line.toList).map String.mk
  else none

/-- The segment URL contributed by one line of the media playlist: non-comment
lines that resolve to an absolute HTTP(S) URL. -/
def contentSegUrl (mediaBaseUrl line : String) : Option String :=
  if isCommentLine line then none
  else
    match resolveUrl line mediaBaseUrl with
    | none => none
    | some u => if isHttpUrl u then some u else none

/-- The init-segment URL contributed by one line: comment lines carrying an
`EXT-X-MAP` directive whose URI resolves to a valid HTTP(S) URL. -/
def directiveInitUrl (mediaBaseUrl line : String) : Option String :=
  if isCommentLine line then
    match extXMapUri line with
    | none => none
    | some uri =>
      match resolveUrl uri mediaBaseUrl with
      | none => none
      | some u => if isHttpUrl u then some u else none
  else none

/-- The `for (const line of mediaLines)` loop of
`resolveSegmentUrlsFromPlaylistUrl`: accumulates segment URLs in order and
keeps the last resolving `EXT-X-MAP` URI (`""` models the loop's falsy initial
`initMapUrl`). -/
def scanMediaLines (mediaBaseUrl : String) :
    List String → List String → String → List String × String
  | [], acc, initUrl => (acc, initUrl)
  | line :: rest, acc, initUrl =>
    if isCommentLine line then
      match directiveInitUrl mediaBaseUrl line with
      | some u => scanMediaLines mediaBaseUrl rest acc u
      | none => scanMediaLines mediaBaseUrl rest acc initUrl
    else
      match contentSegUrl mediaBaseUrl line with
      | some u => scanMediaLines mediaBaseUrl rest (acc ++ [u]) initUrl
      | none => scanMediaLines mediaBaseUrl rest acc initUrl

/-- The segment-URL list produced from the media-level lines: the scanned
content URLs with the init-segment URL prepended (`unshift`) when one was
found. -/
def segmentUrlsOfMediaLines (mediaBaseUrl : String) (mediaLines : List String) :
    List String :=
  let s := scanMediaLines mediaBaseUrl mediaLines [] ""
  if s.2 = "" then s.1 else s.2 :: s.1

/-- The tail of `resolveSegmentUrlsFromPlaylistUrl` on the media-level lines:
fail when the final list is empty. -/
def resolveMediaPlaylistLines (mediaBaseUrl : String) (mediaLines : List String) :
    Except String (List String) :=
  let segmentUrls := segmentUrlsOfMediaLines mediaBaseUrl mediaLines
  if segmentUrls = [] then .error "No segment URLs were found in playlist."
  else .ok segmentUrls

/-- Source `resolveSegmentUrlsFromPlaylistUrl`.  `fetchTextEnv` models
`fetchText` as a pure environment mapping a URL to its body (the claims under
verification assume no fetch failure and no cancellation).  The first component
counts how many fetches were performed. -/
def resolveSegmentUrlsFromPlaylistUrl (fetchTextEnv : String → String)
    (playlistUrl : String) : Nat × Except String (List String) :=
  let mainLines := splitPlaylistLines (fetchTextEnv playlistUrl)
  let hasDirectSegmentLinks := mainLines.any (fun line => !isCommentLine line && isLikelySegmentLine line)
  if hasDirectSegmentLinks then
    (1, resolveMediaPlaylistLines playlistUrl mainLines)
  else
    match getLastContentLine mainLines with
    | none => (1, .error "Playlist does not contain a media playlist reference.")
    | some tail =>
      match resolveUrl tail playlistUrl with
      | none => (1, .error "Playlist tail is not a valid media playlist URL.")
      | some secondPlaylistUrl =>
        if isHttpUrl secondPlaylistUrl then
          (2, resolveMediaPlaylistLines secondPlaylistUrl
            (splitPlaylistLines (fetchTextEnv secondPlaylistUrl)))
        else (1, .error "Playlist tail is not a valid media playlist URL.")

/-! ## Identity extraction and filename construction -/

/-- Source `sanitizeFilePart`'s illegal-character class
`[<>:"/\\|?*\u0000-\u001f]`. -/
def isIllegalFilenameChar (c : Char) : Bool :=
  c = '<' || c = '>' || c = ':' || c = '"' || c = '/' || c = '\\' ||
  c = '|' || c = '?' || c = '*' || c.toNat ≤ 0x1f

/-- Source `sanitizeFilePart`: replace illegal filename characters by spaces,
collapse whitespace runs to single spaces, trim. -/
def sanitizeFilePart (value : String) : String :=
  String.mk (jsTrimChars (collapseWsAux false
    (value.toList.map (fun c => if isIllegalFilenameChar c then ' ' else c))))

structure MediaInfo where
  mediaKey : String
  videoId : String
  resolution : String
  sourceType : String
deriving DecidableEq, Repr

/-- Match of `^(.+)/(\d+)/?$` against the path tail after the marker: strip one
optional trailing slash, then split at the last slash; the suffix must be a
non-empty digit run and the prefix non-empty. -/
def matchMediaKeyResolution (tail : List Char) : Option (List Char × List Char) :=
  let t := if tail.getLast? = some '/' then tail.dropLast else tail
  let digits := (t.reverse.takeWhile Char.isDigit).reverse
  let beforeDigits := t.take (t.length - digits.length)
  if digits.isEmpty then none
  else
    match beforeDigits.getLast? with
    | some '/' =>
      let key := beforeDigits.dropLast
      if key.isEmpty then none else some (key, digits)
    | _ => none

/-- Source `extractCustomMediaInfoFromParsedUrl`. -/
def extractCustomMediaInfoFromParsedUrl (parsed : ParsedUrl) : Option MediaInfo :=
  match splitFirstSeq "/api/playlist/media/".toList parsed.pathname.toList with
  | none => none
  | some (_, tail) =>
    match matchMediaKeyResolution tail with
    | none => none
    | some (keyCs, digits) =>
      let mediaKey := String.mk keyCs
      let segments := (splitOnChar '/' keyCs).filter (fun s => !s.isEmpty)
      let videoId := match segments.getLast? with
        | some s => String.mk s
        | none => mediaKey
      some {
        mediaKey := mediaKey
        videoId := videoId
        resolution := String.mk digits
        sourceType := "custom"
      }

/-- Source `isVimeoCdnHost`: test of `/(^|\.)vimeocdn\.com$/i`. -/
def isVimeoCdnHost (hostname : String) : Bool :=
  let h := hostname.toList.map Char.toLower
  h = "vimeocdn.com".toList || List.isSuffixOf ".vimeocdn.com".toList h

/-- Source `isVimeoPlaylistJsonUrl`. -/
def isVimeoPlaylistJsonUrl (parsed : ParsedUrl) : Bool :=
  isVimeoCdnHost parsed.host &&
  jsIncludes parsed.pathname "/v2/playlist/av/" &&
  List.isSuffixOf "/playlist.json".toList parsed.pathname.toList

/-- First match of `/\/video\/(\d+)/` in a path (used by the Vimeo manifest
identity rule): the digit run after the first `/video/` that is followed by at
least one digit. -/
def firstVideoIdInPath : List Char → Option (List Char)
  | [] => none
  | c :: rest =>
    if List.isPrefixOf "/video/".toList (c :: rest) then
      let ds := (c :: rest).drop 7 |>.takeWhile Char.isDigit
      if ds.isEmpty then firstVideoIdInPath rest else some ds
    else firstVideoIdInPath rest

/-- Lookup in a query string (model of `searchParams.get`): the value of the
first `k=v` pair with the given key. -/
def queryParam (query key : String) : Option String :=
  ((splitOnChar '&' query.toList).map (fun part =>
      let k := part.takeWhile (fun c => c ≠ '=')
      (String.mk k, String.mk (part.drop (k.length + 1))))).lookup key

/-- Hex-or-dash character class `[0-9a-f-]` with the `i` flag. -/
def isHexDashChar (c : Char) : Bool :=
  c.isDigit || ('a' ≤ c.toLower && c.toLower ≤ 'f') || c = '-'

/-- First match of `/\/(e[0-9a-f-]{8,})\//i`: a path segment starting with `e`
followed by at least eight hex-or-dash characters and a closing slash; the
capture keeps the original characters. -/
def firstEidInPath : List Char → Option (List Char)
  | [] => none
  | c :: rest =>
    (if c = '/' then
      match rest with
      | e :: tail =>
        if e.toLower = 'e' then
          let run := tail.takeWhile isHexDashChar
          if 8 ≤ run.length && tail.get? run.length = some '/' then
            some (e :: run)
          else none
        else none
      | [] => none
    else none).orElse (fun _ => firstEidInPath rest)

/-- Source `extractVimeoMediaInfoFromParsedUrl`. -/
def extractVimeoMediaInfoFromParsedUrl (parsed : ParsedUrl) : Option MediaInfo :=
  if isVimeoPlaylistJsonUrl parsed then
    let videoIdFromPath := ((firstVideoIdInPath parsed.pathname.toList).map String.mk).getD ""
    let videoIdFromQuery := (queryParam parsed.query "videoId").getD ""
    let eidFromPath := ((firstEidInPath parsed.pathname.toList).map String.mk).getD ""
    let mediaSeed :=
      if videoIdFromPath ≠ "" then videoIdFromPath
      else if videoIdFromQuery ≠ "" then videoIdFromQuery
      else if eidFromPath ≠ "" then eidFromPath
      else parsed.pathname
    some {
      mediaKey := "vimeo:" ++ mediaSeed
      videoId := mediaSeed
      resolution := "adaptive"
      sourceType := "vimeo"
    }
  else none

/-- Match of `^\/video\/(\d+)\/?$` for the player-page path. -/
def matchPlayerPagePath (path : List Char) : Option (List Char) :=
  if List.isPrefixOf "/video/".toList path then
    let tail := path.drop 7
    let ds := tail.takeWhile Char.isDigit
    if ds.isEmpty then none
    else if tail.drop ds.length = [] || tail.drop ds.length = ['/'] then some ds
    else none
  else none

/-- Source `extractVimeoPlayerPageInfoFromParsedUrl`. -/
def extractVimeoPlayerPageInfoFromParsedUrl (parsed : ParsedUrl) : Option MediaInfo :=
  if parsed.host = "player.vimeo.com" then
    match matchPlayerPagePath parsed.pathname.toList with
    | none => none
    | some ds =>
      let videoId := String.mk ds
      some {
        mediaKey := "vimeo:" ++ videoId
        videoId := videoId
        resolution := "adaptive"
        sourceType := "vimeo-player-page"
      }
  else none

/-- Source `extractMediaInfoFromUrl`: try the three extraction rules in order;
a URL-parse failure yields `none`. -/
def extractMediaInfoFromUrl (urlString : String) : Option MediaInfo :=
  match parseUrl urlString with
  | none => none
  | some parsed =>
    match extractCustomMediaInfoFromParsedUrl parsed with
    | some info => some info
    | none =>
      match extractVimeoMediaInfoFromParsedUrl parsed with
      | some info => some info
      | none => extractVimeoPlayerPageInfoFromParsedUrl parsed

/-- Take the first `n` characters (model of `String.prototype.slice(0, n)`). -/
def takeChars (s : String) (n : Nat) : String :=
  String.mk (s.toList.take n)

/-- The sanitized, length-capped identity token used in output filenames
(the `videoId` stage of `buildDownloadFilename`). -/
def filenameVideoToken (urlString : String) : String :=
  let videoId := sanitizeFilePart
    (match extractMediaInfoFromUrl urlString with
     | some info => info.videoId
     | none => "video")
  if videoId.length > 48 then takeChars videoId 48 else videoId

/-- The name part of `buildDownloadFilename` (everything before the final
dot): compose `"<title> <token>"` when the sanitized title is non-empty, else
just the token; re-sanitize, truncate to 180 characters, fall back to
`"video"` when empty. -/
def downloadFilenameBase (urlString lessonTitle : String) : String :=
  let videoId := filenameVideoToken urlString
  let title := sanitizeFilePart lessonTitle
  let rawName := if title ≠ "" then title ++ " " ++ videoId else videoId
  let normalized0 := takeChars (sanitizeFilePart rawName) 180
  if normalized0 = "" then "video" else normalized0

/-- The extension part of `buildDownloadFilename`:
`String(fileExtension || "ts").replace(/^\./, "")`, falling back to `ts` when
that leaves nothing. -/
def downloadFilenameExt (fileExtension : String) : String :=
  let ext0 := if fileExtension = "" then "ts" else fileExtension
  let ext1 := if List.isPrefixOf ['.'] ext0.toList then String.mk (ext0.toList.drop 1) else ext0
  if ext1 = "" then "ts" else ext1

/-- Source `buildDownloadFilename`. -/
def buildDownloadFilename (urlString lessonTitle fileExtension : String) : String :=
  downloadFilenameBase urlString lessonTitle ++ "." ++ downloadFilenameExt fileExtension

/-! ## Adaptive-manifest track selection (`pickBestVimeoTrackSelection`)

Tracks are duck-typed JSON objects in the source; the structure below carries
exactly the fields the selection logic reads.  `Option Int` fields model JS
number fields (`none` = absent or non-finite after `Number(...)`); the
`segments` field is `none` when `Array.isArray(track.segments)` is false.
Segment entries themselves are never inspected by the selection logic and are
modelled opaquely as strings. -/

structure Track where
  height : Option Int := none
  max_height : Option Int := none
  bitrate : Option Int := none
  avg_bitrate : Option Int := none
  bandwidth : Option Int := none
  segments : Option (List String) := none
  url : Option String := none
  has_audio : Bool := false
  audio : Bool := false
  audio_channels : Option Int := none
  channels : Option Int := none
  channel_count : Option Int := none
  audio_codec : Option String := none
  codecs : Option String := none
  mime_type : Option String := none
deriving DecidableEq, Repr

/-- Source `getTrackNumericValue`: the first key whose value is a finite
number, else `-1`.  Dynamic key access is modelled by passing field
accessors. -/
def getTrackNumericValue (track : Track) : List (Track → Option Int) → Int
  | [] => -1
  | key :: rest =>
    match key track with
    | some v => v
    | none => getTrackNumericValue track rest

/-- The height used by the quality comparator (`height`, falling back to
`max_height`). -/
def trackHeightValue (track : Track) : Int :=
  getTrackNumericValue track [Track.height, Track.max_height]

/-- The bitrate used by the quality comparator (`bitrate`, `avg_bitrate`,
`bandwidth`). -/
def trackBitrateValue (track : Track) : Int :=
  getTrackNumericValue track [Track.bitrate, Track.avg_bitrate, Track.bandwidth]

/-- `Array.isArray(t.segments) ? t.segments.length : 0`. -/
def trackSegmentsLength (track : Track) : Nat :=
  match track.segments with
  | some segs => segs.length
  | none => 0

/-- Source `hasUsableTrackSource`: a non-empty segment array or a non-empty
string `url` field. -/
def hasUsableTrackSource (track : Track) : Bool :=
  (match track.segments with
   | some segs => decide (segs.length > 0)
   | none => false) ||
  (match track.url with
   | some u => decide (u.length > 0)
   | none => false)

/-- The comparator body of `sortTracksByQuality`: height delta, then bitrate
delta, then segment-count delta (all descending). -/
def cmpTracksByQuality (a b : Track) : Int :=
  let heightDelta := trackHeightValue b - trackHeightValue a
  if heightDelta ≠ 0 then heightDelta
  else
    let bitrateDelta := trackBitrateValue b - trackBitrateValue a
    if bitrateDelta ≠ 0 then bitrateDelta
    else (trackSegmentsLength b : Int) - (trackSegmentsLength a : Int)

/-- Source `sortTracksByQuality`: `Array.prototype.sort` with the comparator
above (stable, as ECMAScript requires). -/
def sortTracksByQuality (tracks : List Track) : List Track :=
  tracks.mergeSort (fun a b => decide (cmpTracksByQuality a b ≤ 0))

/-- The audio-codec tokens of the source regex
`/(mp4a|aac|ac-3|ec-3|opus|vorbis)/i`. -/
def audioCodecTokens : List String :=
  ["mp4a", "aac", "ac-3", "ec-3", "opus", "vorbis"]

/-- Source `trackLikelyHasEmbeddedAudio`. -/
def trackLikelyHasEmbeddedAudio (track : Track) : Bool :=
  track.has_audio || track.audio ||
  decide (getTrackNumericValue track
    [Track.audio_channels, Track.channels, Track.channel_count] > 0) ||
  (match track.audio_codec with
   | some s => decide (s.toList.map Char.toLower ≠ "none".toList)
   | none => false) ||
  (match track.codecs with
   | some s => audioCodecTokens.any (fun tok =>
       listContainsSeq tok.toList (s.toList.map Char.toLower))
   | none => false) ||
  (match track.mime_type with
   | some s => jsIncludes s "audio"
   | none => false)

/-- The manifest families read by the selection cascade.  A family that is
absent or not an array in the JSON is modelled as `[]`, exactly as the source's
`Array.isArray(...) ? ... : []` does. -/
structure Manifest where
  muxed : List Track := []
  audio_video : List Track := []
  video : List Track := []
  audio : List Track := []
deriving DecidableEq, Repr

structure TrackSelection where
  track : Track
  family : String
deriving DecidableEq, Repr

/-- The exact message of the `NeedsRemux` throw; the caller recognises it by
substring match. -/
def remuxRequiredMessage : String :=
  "Separate audio/video Vimeo streams require remuxing, which is not supported yet."

/-- The exact message of the hard video-only failure. -/
def videoOnlyMessage : String :=
  "Vimeo track appears video-only with no embedded audio metadata. Refusing to create a potentially silent file."

/-- The substring by which `startDownloadJob` recognises the remux condition. -/
def remuxDetectionNeedle : String :=
  "Separate audio/video Vimeo streams require remuxing"

/-- Source `pickBestVimeoTrackSelection`: thrown errors are modelled as
`Except.error` carrying the message; the source's `null` return is
`.ok none`. -/
def pickBestVimeoTrackSelection (manifest : Manifest) :
    Except String (Option TrackSelection) :=
  match sortTracksByQuality (manifest.muxed.filter hasUsableTrackSource) with
  | t :: _ => .ok (some { track := t, family := "muxed" })
  | [] =>
    match sortTracksByQuality (manifest.audio_video.filter hasUsableTrackSource) with
    | t :: _ => .ok (some { track := t, family := "audio_video" })
    | [] =>
      match sortTracksByQuality (manifest.video.filter hasUsableTrackSource) with
      | [] => .ok none
      | v :: vs =>
        match (v :: vs).filter trackLikelyHasEmbeddedAudio with
        | t :: _ => .ok (some { track := t, family := "video_embedded_audio" })
        | [] =>
          if (manifest.audio).any hasUsableTrackSource then
            .error remuxRequiredMessage
          else
            .error videoOnlyMessage

/-! ## Segment fetcher (`fetchSegmentWithRetry`)

The loop is modelled as a pure function of two oracles indexed by the attempt
counter: `outcome i` is what the `fetch` on counter value `i` would produce,
and `aborted i` is the state of the cancellation signal at the
`throwIfAborted` check preceding that attempt.  The function records a trace
of network attempts and backoff sleeps.  The recursion is structural on `gas`,
which stands for `retries - attempt`: the source retries only while
`attempt < retries`. -/

def MAX_SEGMENT_RETRIES : Nat := 12

inductive SegAttempt where
  | ok
  | fail (msg : String)
deriving DecidableEq, Repr

inductive FetchEvent where
  | attempt (i : Nat)
  | sleep (ms : Nat)
deriving DecidableEq, Repr

inductive FetchResult where
  | success
  | failure (msg : String)
  | cancelled
deriving DecidableEq, Repr

/-- The backoff before the retry that follows a failure on counter value
`attempt`: `Math.min(3000, 250 * Math.pow(2, attempt))`. -/
def backoffMs (attempt : Nat) : Nat :=
  min 3000 (250 * 2 ^ attempt)

/-- The `while (true)` body of `fetchSegmentWithRetry`, unrolled on the
remaining retry budget `gas = retries - attempt`. -/
def fetchRetryLoop (url : String) (outcome : Nat → SegAttempt) (aborted : Nat → Bool) :
    Nat → Nat → List FetchEvent × FetchResult
  | attempt, gas =>
    if aborted attempt then ([], .cancelled)
    else
      match outcome attempt with
      | .ok => ([.attempt attempt], .success)
      | .fail msg =>
        match gas with
        | 0 => ([.attempt attempt],
            .failure ("Segment fetch failed for " ++ url ++ ": " ++ msg))
        | g + 1 =>
          let rest := fetchRetryLoop url outcome aborted (attempt + 1) g
          (.attempt attempt :: .sleep (backoffMs attempt) :: rest.1, rest.2)

/-- Source `fetchSegmentWithRetry` (counter starts at 0). -/
def fetchSegmentWithRetry (url : String) (outcome : Nat → SegAttempt)
    (aborted : Nat → Bool) (retries : Nat) : List FetchEvent × FetchResult :=
  fetchRetryLoop url outcome aborted 0 retries

/-- The attempt-counter values at which a network request was issued. -/
def fetchAttempts (trace : List FetchEvent) : List Nat :=
  trace.filterMap (fun e => match e with | .attempt i => some i | .sleep _ => none)

/-- The backoff sleeps performed, in order. -/
def fetchSleeps (trace : List FetchEvent) : List Nat :=
  trace.filterMap (fun e => match e with | .sleep ms => some ms | .attempt _ => none)

/-! ## Job manager (`startDownloadJob` / `activeDownloads`)

The registry interaction of `startDownloadJob` is modelled as a sequential
summary of one job run: the duplicate check against `activeDownloads`, the
insertion, the pipeline (abstracted to its terminal outcome), the
`catch`-block state classification and the `finally`-block removal. -/

/-- The state chosen by the `catch` block of `startDownloadJob`:
`cancelled` when the error is a cancellation, the job's `cancelled` flag is
set, or the signal is aborted; `error` otherwise. -/
def terminalStateForCaughtError (errorIsCancelled jobCancelled signalAborted : Bool) :
    String :=
  if errorIsCancelled || jobCancelled || signalAborted then "cancelled" else "error"

/-- Terminal outcome of the resolution/download pipeline of one job.  A
`FfmpegRequiredError` propagates through the generic `catch` like any other
non-cancellation error. -/
inductive PipelineOutcome where
  | completed
  | threw (errorIsCancelled jobCancelled signalAborted : Bool)
deriving DecidableEq, Repr

structure StartJobResult where
  registry : List String
  state : String
  message : String
  pipelineRan : Bool
deriving DecidableEq, Repr

/-- The registry life cycle of `startDownloadJob` for a classified media key:
an already-registered key only reports "already in progress"; otherwise the
key is inserted, the pipeline runs to its terminal outcome, and the `finally`
block removes the entry. -/
def startDownloadJobRegistry (activeDownloads : List String) (mediaKey : String)
    (outcome : PipelineOutcome) : StartJobResult :=
  if mediaKey ∈ activeDownloads then
    { registry := activeDownloads
      state := "running"
      message := "Download already in progress."
      pipelineRan := false }
  else
    let inserted := mediaKey :: activeDownloads
    let state :=
      match outcome with
      | .completed => "success"
      | .threw e j s => terminalStateForCaughtError e j s
    { registry := inserted.erase mediaKey
      state := state
      message := ""
      pipelineRan := true }

/-! ## Supporting lemmas: segment fetcher -/

/-- Bound on the number of network attempts: one more than the remaining retry
budget. -/
theorem fetchRetryLoop_attempts_le (url : String) (outcome : Nat → SegAttempt)
    (aborted : Nat → Bool) :
    ∀ gas attempt,
      (fetchAttempts (fetchRetryLoop url outcome aborted attempt gas).1).length ≤ gas + 1 := by
  intro gas
  induction gas with
  | zero =>
    intro attempt
    unfold fetchRetryLoop
    split
    · simp [fetchAttempts]
    · cases houtcome : outcome attempt <;> simp [fetchAttempts]
  | succ g ih =>
    intro attempt
    unfold fetchRetryLoop
    split
    · simp [fetchAttempts]
    · cases houtcome : outcome attempt with
      | ok => simp [fetchAttempts]
      | fail msg =>
        simp only [fetchAttempts, List.filterMap_cons]
        have := ih (attempt + 1)
        simp only [fetchAttempts] at this
        simpa using Nat.succ_le_succ this

/-- Every attempt in the trace was issued while the signal was not aborted. -/
theorem fetchRetryLoop_attempts_not_aborted (url : String) (outcome : Nat → SegAttempt)
    (aborted : Nat → Bool) :
    ∀ gas attempt i,
      i ∈ fetchAttempts (fetchRetryLoop url outcome aborted attempt gas).1 →
      aborted i = false := by
  intro gas
  induction gas with
  | zero =>
    intro attempt i hi
    unfold fetchRetryLoop at hi
    split at hi
    · simp [fetchAttempts] at hi
    · next habort =>
      cases houtcome : outcome attempt <;>
        simp [fetchAttempts, houtcome] at hi <;>
        simpa [hi] using Bool.not_eq_true _ ▸ habort
  | succ g ih =>
    intro attempt i hi
    unfold fetchRetryLoop at hi
    split at hi
    · simp [fetchAttempts] at hi
    · next habort =>
      cases houtcome : outcome attempt with
      | ok =>
        simp [fetchAttempts, houtcome] at hi
        subst hi
        exact Bool.eq_false_iff.mpr habort
      | fail msg =>
        simp only [houtcome, fetchAttempts, List.filterMap_cons] at hi
        simp only [List.mem_cons] at hi
        rcases hi with rfl | hi
        · exact Bool.eq_false_iff.mpr habort
        · exact ih (attempt + 1) i (by simpa [fetchAttempts] using hi)

/-- An aborted signal at the loop head short-circuits the whole loop. -/
theorem fetchRetryLoop_aborted (url : String) (outcome : Nat → SegAttempt)
    (aborted : Nat → Bool) (attempt gas : Nat) (h : aborted attempt = true) :
    fetchRetryLoop url outcome aborted attempt gas = ([], .cancelled) := by
  unfold fetchRetryLoop
  simp [h]

/-- C3 (counterexample): with the default budget `MAX_SEGMENT_RETRIES = 12`
and every attempt failing, the fetcher issues 13 network attempts — the claim
that at most 12 attempts are made and "a 13th attempt is never made" is false.
The source checks `attempt >= retries` only after a failed attempt, with the
counter starting at 0, so a budget of 12 yields one initial attempt plus 12
retries. -/
theorem c3_thirteenth_attempt_counterexample :
    (fetchAttempts (fetchSegmentWithRetry "https://cdn.example/seg0.ts"
        (fun _ => .fail "HTTP 500") (fun _ => false) MAX_SEGMENT_RETRIES).1).length = 13 ∧
    ¬ ((13 : Nat) ≤ 12) := by
  exact ⟨by decide, by decide⟩

/-- C3 (amended): with the default budget of `MAX_SEGMENT_RETRIES = 12`
retries, the fetcher makes at most 13 network attempts in total (one initial
attempt plus 12 retries; a 14th is never made); when every attempt fails it
makes exactly 13 attempts and then fails with an error naming the URL and the
last cause, and between consecutive failed attempts it sleeps exactly
`min(3000ms, 250ms × 2^attempt)` — 250ms after the first failure and 500ms
after the second. -/
theorem c3_retry_budget (url : String) (failMsg : Nat → String) :
    (∀ (outcome : Nat → SegAttempt) (aborted : Nat → Bool),
      (fetchAttempts (fetchSegmentWithRetry url outcome aborted MAX_SEGMENT_RETRIES).1).length ≤ 13) ∧
    (fetchAttempts (fetchSegmentWithRetry url (fun i => .fail (failMsg i))
        (fun _ => false) MAX_SEGMENT_RETRIES).1).length = 13 ∧
    (fetchSegmentWithRetry url (fun i => .fail (failMsg i))
        (fun _ => false) MAX_SEGMENT_RETRIES).2 =
      .failure ("Segment fetch failed for " ++ url ++ ": " ++ failMsg 12) ∧
    fetchSleeps (fetchSegmentWithRetry url (fun i => .fail (failMsg i))
        (fun _ => false) MAX_SEGMENT_RETRIES).1 = (List.range 12).map backoffMs ∧
    (List.range 12).map backoffMs =
      [250, 500, 1000, 2000, 3000, 3000, 3000, 3000, 3000, 3000, 3000, 3000] := by
  refine ⟨fun outcome aborted => fetchRetryLoop_attempts_le url outcome aborted 12 0,
    rfl, rfl, rfl, by decide⟩

/-- C4: once the cancellation signal is activated (it is monotone: once
aborted, it stays aborted), the fetcher issues no further network request
— every attempt in the trace precedes the activation point; an abort observed
at the pre-attempt check ends the loop at once with no attempt and no backoff
sleep; and the job's catch-block classification turns any cancellation into
the distinct `cancelled` terminal state, never `error`. -/
theorem c4_cancellation_stops_fetching (url : String) (outcome : Nat → SegAttempt)
    (aborted : Nat → Bool) (retries : Nat)
    (hmono : ∀ i j, i ≤ j → aborted i = true → aborted j = true)
    (k : Nat) (hk : aborted k = true) :
    (∀ i, i ∈ fetchAttempts (fetchSegmentWithRetry url outcome aborted retries).1 → i < k) ∧
    (∀ attempt gas, aborted attempt = true →
      fetchRetryLoop url outcome aborted attempt gas = ([], .cancelled)) ∧
    (∀ jobCancelled signalAborted : Bool,
      terminalStateForCaughtError true jobCancelled signalAborted = "cancelled") ∧
    (∀ e j s : Bool, terminalStateForCaughtError e j s = "error" →
      e = false ∧ j = false ∧ s = false) := by
  refine ⟨?_, fun attempt gas h => fetchRetryLoop_aborted url outcome aborted attempt gas h,
    ?_, ?_⟩
  · intro i hi
    have hfalse := fetchRetryLoop_attempts_not_aborted url outcome aborted retries 0 i hi
    by_contra hlt
    have hki : k ≤ i := by omega
    have := hmono k i hki hk
    rw [this] at hfalse
    exact Bool.true_eq_false.mp hfalse
  · intro jobCancelled signalAborted
    simp [terminalStateForCaughtError]
  · intro e j s h
    cases e <;> cases j <;> cases s <;> simp_all [terminalStateForCaughtError]

/-- Witness for C4 at a concrete input: the signal aborts from attempt
counter 2 onward, so all issued attempts precede 2. -/
theorem c4_cancellation_stops_fetching_witness :
    (∀ i, i ∈ fetchAttempts (fetchSegmentWithRetry "https://cdn.example/seg0.ts"
        (fun _ => .fail "HTTP 500") (fun i => decide (2 ≤ i)) 12).1 → i < 2) ∧
    (∀ attempt gas, decide (2 ≤ attempt) = true →
      fetchRetryLoop "https://cdn.example/seg0.ts" (fun _ => .fail "HTTP 500")
        (fun i => decide (2 ≤ i)) attempt gas = ([], .cancelled)) ∧
    (∀ jobCancelled signalAborted : Bool,
      terminalStateForCaughtError true jobCancelled signalAborted = "cancelled") ∧
    (∀ e j s : Bool, terminalStateForCaughtError e j s = "error" →
      e = false ∧ j = false ∧ s = false) :=
  c4_cancellation_stops_fetching "https://cdn.example/seg0.ts"
    (fun _ => .fail "HTTP 500") (fun i => decide (2 ≤ i)) 12
    (fun i j hij hi => by
      simp only [decide_eq_true_eq] at hi ⊢
      omega)
    2 (by decide)

/-! ## Supporting lemmas: job registry -/

/-- C7: the registry keeps at most one job per media identity: a start for an
already-registered key leaves the registry unchanged, does not run the
pipeline, and only reports the "already in progress" status; and any start
preserves distinctness of the registered keys. -/
theorem c7_at_most_one_job_per_identity (activeDownloads : List String)
    (mediaKey : String) (outcome : PipelineOutcome)
    (hnodup : activeDownloads.Nodup) :
    (startDownloadJobRegistry activeDownloads mediaKey outcome).registry.Nodup ∧
    (startDownloadJobRegistry activeDownloads mediaKey outcome).registry.count mediaKey ≤ 1 ∧
    (mediaKey ∈ activeDownloads →
      startDownloadJobRegistry activeDownloads mediaKey outcome =
        { registry := activeDownloads
          state := "running"
          message := "Download already in progress."
          pipelineRan := false }) := by
  by_cases hmem : mediaKey ∈ activeDownloads
  · refine ⟨?_, ?_, fun _ => ?_⟩ <;>
      simp [startDownloadJobRegistry, hmem, hnodup, List.nodup_iff_count_le_one.mp hnodup]
  · have hreg : (startDownloadJobRegistry activeDownloads mediaKey outcome).registry =
        activeDownloads := by
      simp [startDownloadJobRegistry, hmem]
    refine ⟨?_, ?_, fun hmem' => absurd hmem' hmem⟩
    · rw [hreg]; exact hnodup
    · rw [hreg]
      simp [List.count_eq_zero.mpr hmem]

/-- Witness for C7 at a concrete input. -/
theorem c7_at_most_one_job_per_identity_witness :
    (startDownloadJobRegistry ["vimeo:42"] "vimeo:42" .completed).registry.Nodup ∧
    (startDownloadJobRegistry ["vimeo:42"] "vimeo:42" .completed).registry.count "vimeo:42" ≤ 1 ∧
    ("vimeo:42" ∈ ["vimeo:42"] →
      startDownloadJobRegistry ["vimeo:42"] "vimeo:42" .completed =
        { registry := ["vimeo:42"]
          state := "running"
          message := "Download already in progress."
          pipelineRan := false }) :=
  c7_at_most_one_job_per_identity ["vimeo:42"] "vimeo:42" .completed (by decide)

/-- C8: every job that is actually started (its key was not registered) has
its registry entry removed again when the pipeline terminates, whatever the
terminal outcome — the final registry equals the original one and no longer
contains the key. -/
theorem c8_registry_cleanup (activeDownloads : List String) (mediaKey : String)
    (outcome : PipelineOutcome) (hstart : mediaKey ∉ activeDownloads) :
    (startDownloadJobRegistry activeDownloads mediaKey outcome).registry = activeDownloads ∧
    mediaKey ∉ (startDownloadJobRegistry activeDownloads mediaKey outcome).registry ∧
    (startDownloadJobRegistry activeDownloads mediaKey outcome).pipelineRan = true := by
  have hreg : (startDownloadJobRegistry activeDownloads mediaKey outcome).registry =
      activeDownloads := by
    simp [startDownloadJobRegistry, hstart]
  exact ⟨hreg, by rw [hreg]; exact hstart, by simp [startDownloadJobRegistry, hstart]⟩

/-- Witness for C8 at a concrete input, covering each terminal outcome. -/
theorem c8_registry_cleanup_witness :
    ((startDownloadJobRegistry ["abc/def"] "vimeo:42" .completed).registry = ["abc/def"] ∧
      "vimeo:42" ∉ (startDownloadJobRegistry ["abc/def"] "vimeo:42" .completed).registry ∧
      (startDownloadJobRegistry ["abc/def"] "vimeo:42" .completed).pipelineRan = true) ∧
    ((startDownloadJobRegistry ["abc/def"] "vimeo:42"
        (.threw true false false)).registry = ["abc/def"] ∧
      "vimeo:42" ∉ (startDownloadJobRegistry ["abc/def"] "vimeo:42"
        (.threw true false false)).registry ∧
      (startDownloadJobRegistry ["abc/def"] "vimeo:42"
        (.threw true false false)).pipelineRan = true) ∧
    ((startDownloadJobRegistry ["abc/def"] "vimeo:42"
        (.threw false false false)).registry = ["abc/def"] ∧
      "vimeo:42" ∉ (startDownloadJobRegistry ["abc/def"] "vimeo:42"
        (.threw false false false)).registry ∧
      (startDownloadJobRegistry ["abc/def"] "vimeo:42"
        (.threw false false false)).pipelineRan = true) :=
  ⟨c8_registry_cleanup ["abc/def"] "vimeo:42" .completed (by decide),
   c8_registry_cleanup ["abc/def"] "vimeo:42" (.threw true false false) (by decide),
   c8_registry_cleanup ["abc/def"] "vimeo:42" (.threw false false false) (by decide)⟩

/-! ## Supporting lemmas: track quality order -/

/-- The strict "is lower quality than" order stated by the spec: greater
height (or max-height) wins, ties broken by bitrate/bandwidth, then by number
of segments. -/
def qualityLt (a b : Track) : Prop :=
  trackHeightValue a < trackHeightValue b ∨
    (trackHeightValue a = trackHeightValue b ∧
      (trackBitrateValue a < trackBitrateValue b ∨
        (trackBitrateValue a = trackBitrateValue b ∧
          trackSegmentsLength a < trackSegmentsLength b)))

/-- The comparator of `sortTracksByQuality` sorts `a` before (or equal to) `b`
exactly when `a` is not strictly lower quality than `b`. -/
theorem cmpTracksByQuality_nonpos_iff (a b : Track) :
    cmpTracksByQuality a b ≤ 0 ↔ ¬ qualityLt a b := by
  simp only [cmpTracksByQuality, qualityLt]
  split_ifs <;> omega

theorem qualityLt_irrefl (a : Track) : ¬ qualityLt a a := by
  simp only [qualityLt]
  omega

/-- The boolean comparator used by `sortTracksByQuality`, as passed to the
sort. -/
def trackLe (a b : Track) : Bool :=
  decide (cmpTracksByQuality a b ≤ 0)

theorem trackLe_trans (a b c : Track) :
    trackLe a b = true → trackLe b c = true → trackLe a c = true := by
  simp only [trackLe, decide_eq_true_eq, cmpTracksByQuality]
  split_ifs <;> omega

theorem trackLe_total (a b : Track) : trackLe a b || trackLe b a := by
  simp only [trackLe, Bool.or_eq_true, decide_eq_true_eq, cmpTracksByQuality]
  split_ifs <;> omega

theorem sortTracksByQuality_eq_mergeSort (tracks : List Track) :
    sortTracksByQuality tracks = tracks.mergeSort trackLe := rfl

/-- Membership is preserved by the quality sort. -/
theorem mem_sortTracksByQuality {t : Track} {tracks : List Track} :
    t ∈ sortTracksByQuality tracks ↔ t ∈ tracks := by
  rw [sortTracksByQuality_eq_mergeSort]
  exact List.mem_mergeSort

/-- The head of the quality sort is a maximal element: no element of the list
is strictly better. -/
theorem sortTracksByQuality_head_maximal {tracks : List Track} {t : Track}
    {rest : List Track} (h : sortTracksByQuality tracks = t :: rest) :
    ∀ u ∈ tracks, ¬ qualityLt t u := by
  intro u hu
  have hmem : u ∈ t :: rest := by
    rw [← h, mem_sortTracksByQuality]
    exact hu
  have hsorted : (tracks.mergeSort trackLe).Pairwise (fun a b => trackLe a b) :=
    List.sorted_mergeSort trackLe_trans trackLe_total tracks
  rw [← sortTracksByQuality_eq_mergeSort, h, List.pairwise_cons] at hsorted
  rcases List.mem_cons.mp hmem with rfl | hmem'
  · exact qualityLt_irrefl _
  · have hle : trackLe t u = true := hsorted.1 u hmem'
    rw [trackLe, decide_eq_true_eq, cmpTracksByQuality_nonpos_iff] at hle
    exact hle

/-- C1: whenever the `muxed` family has a usable track (non-empty segment
list or direct URL), the selection returns a muxed-family track — whatever the
other families contain — and that track is usable and maximal among the usable
muxed tracks for the height / bitrate / segment-count order. -/
theorem c1_muxed_family_priority (manifest : Manifest)
    (h : ∃ t ∈ manifest.muxed, hasUsableTrackSource t = true) :
    ∃ sel : TrackSelection,
      pickBestVimeoTrackSelection manifest = .ok (some sel) ∧
      sel.family = "muxed" ∧
      sel.track ∈ manifest.muxed ∧
      hasUsableTrackSource sel.track = true ∧
      ∀ t ∈ manifest.muxed, hasUsableTrackSource t = true → ¬ qualityLt sel.track t := by
  obtain ⟨t0, ht0, hu0⟩ := h
  have hmemf : t0 ∈ manifest.muxed.filter hasUsableTrackSource :=
    List.mem_filter.mpr ⟨ht0, hu0⟩
  cases hsort : sortTracksByQuality (manifest.muxed.filter hasUsableTrackSource) with
  | nil =>
    exfalso
    have hmem := mem_sortTracksByQuality.mpr hmemf
    rw [hsort] at hmem
    simp at hmem
  | cons t rest =>
    have hmemt : t ∈ manifest.muxed.filter hasUsableTrackSource := by
      have : t ∈ t :: rest := List.mem_cons_self _ _
      rw [← hsort, mem_sortTracksByQuality] at this
      exact this
    refine ⟨⟨t, "muxed"⟩, ?_, rfl, (List.mem_filter.mp hmemt).1,
      (List.mem_filter.mp hmemt).2, ?_⟩
    · simp only [pickBestVimeoTrackSelection, hsort]
    · intro u hu huse
      exact sortTracksByQuality_head_maximal hsort u (List.mem_filter.mpr ⟨hu, huse⟩)

def sampleMuxed360 : Track :=
  { height := some 360, bitrate := some 500, url := some "https://cdn.example/v360.mp4" }

def sampleMuxed720 : Track :=
  { height := some 720, bitrate := some 1200, url := some "https://cdn.example/v720.mp4" }

def sampleVideoOnly1080 : Track :=
  { height := some 1080, bitrate := some 9000, url := some "https://cdn.example/v1080.mp4" }

def sampleAudioTrack : Track :=
  { bitrate := some 128, url := some "https://cdn.example/audio.mp4" }

def sampleMuxedManifest : Manifest :=
  { muxed := [sampleMuxed360, sampleMuxed720]
    audio_video := [sampleVideoOnly1080]
    video := [sampleVideoOnly1080]
    audio := [sampleAudioTrack] }

/-- Witness for C1 at a concrete manifest whose `video` family advertises a
higher quality than any muxed track. -/
theorem c1_muxed_family_priority_witness :
    ∃ sel : TrackSelection,
      pickBestVimeoTrackSelection sampleMuxedManifest = .ok (some sel) ∧
      sel.family = "muxed" ∧
      sel.track ∈ sampleMuxedManifest.muxed ∧
      hasUsableTrackSource sel.track = true ∧
      ∀ t ∈ sampleMuxedManifest.muxed, hasUsableTrackSource t = true →
        ¬ qualityLt sel.track t :=
  c1_muxed_family_priority sampleMuxedManifest
    ⟨sampleMuxed360, by decide, by decide⟩

/-- C2: when the only usable tracks are in the `video` family and none of them
shows an embedded-audio signal, the selection fails: with the distinguished
remux message when the `audio` family has a usable track, and with the hard
video-only message when it has none; only the former contains the needle by
which the caller recognises the remux condition, and neither outcome yields a
track. -/
theorem c2_video_only_failures (manifest : Manifest)
    (hmux : ∀ t ∈ manifest.muxed, hasUsableTrackSource t = false)
    (hav : ∀ t ∈ manifest.audio_video, hasUsableTrackSource t = false)
    (hvid : ∃ t ∈ manifest.video, hasUsableTrackSource t = true)
    (hnoaudio : ∀ t ∈ manifest.video, hasUsableTrackSource t = true →
      trackLikelyHasEmbeddedAudio t = false) :
    ((∃ t ∈ manifest.audio, hasUsableTrackSource t = true) →
      pickBestVimeoTrackSelection manifest = .error remuxRequiredMessage) ∧
    ((∀ t ∈ manifest.audio, hasUsableTrackSource t = false) →
      pickBestVimeoTrackSelection manifest = .error videoOnlyMessage) ∧
    jsIncludes remuxRequiredMessage remuxDetectionNeedle = true ∧
    jsIncludes videoOnlyMessage remuxDetectionNeedle = false := by
  have hmuxnil : manifest.muxed.filter hasUsableTrackSource = [] :=
    List.filter_eq_nil_iff.mpr (fun a ha => by simp [hmux a ha])
  have havnil : manifest.audio_video.filter hasUsableTrackSource = [] :=
    List.filter_eq_nil_iff.mpr (fun a ha => by simp [hav a ha])
  have hsort1 : sortTracksByQuality (manifest.muxed.filter hasUsableTrackSource) = [] := by
    rw [hmuxnil, sortTracksByQuality_eq_mergeSort, List.mergeSort_nil]
  have hsort2 : sortTracksByQuality (manifest.audio_video.filter hasUsableTrackSource) = [] := by
    rw [havnil, sortTracksByQuality_eq_mergeSort, List.mergeSort_nil]
  obtain ⟨t0, ht0, hu0⟩ := hvid
  have hmemf : t0 ∈ manifest.video.filter hasUsableTrackSource :=
    List.mem_filter.mpr ⟨ht0, hu0⟩
  cases hsort3 : sortTracksByQuality (manifest.video.filter hasUsableTrackSource) with
  | nil =>
    exfalso
    have hmem := mem_sortTracksByQuality.mpr hmemf
    rw [hsort3] at hmem
    simp at hmem
  | cons v vs =>
    have hembed : (v :: vs).filter trackLikelyHasEmbeddedAudio = [] := by
      refine List.filter_eq_nil_iff.mpr (fun a ha => ?_)
      have : a ∈ manifest.video.filter hasUsableTrackSource := by
        rw [← mem_sortTracksByQuality, hsort3]
        exact ha
      have hmem := List.mem_filter.mp this
      simp [hnoaudio a hmem.1 hmem.2]
    refine ⟨?_, ?_, by decide, by decide⟩
    · intro ⟨ta, hta, hua⟩
      have hany : manifest.audio.any hasUsableTrackSource = true :=
        List.any_eq_true.mpr ⟨ta, hta, hua⟩
      simp only [pickBestVimeoTrackSelection, hsort1, hsort2, hsort3, hembed, hany,
        if_true]
    · intro hnone
      have hany : manifest.audio.any hasUsableTrackSource = false := by
        rw [Bool.eq_false_iff]
        intro hc
        obtain ⟨ta, hta, hua⟩ := List.any_eq_true.mp hc
        rw [hnone ta hta] at hua
        exact Bool.true_eq_false.mp hua.symm
      simp only [pickBestVimeoTrackSelection, hsort1, hsort2, hsort3, hembed, hany,
        if_false, Bool.false_eq_true]

def sampleVideoOnlyManifestWithAudio : Manifest :=
  { video := [sampleVideoOnly1080]
    audio := [sampleAudioTrack] }

def sampleVideoOnlyManifestNoAudio : Manifest :=
  { video := [sampleVideoOnly1080] }

/-- Witness for C2 at concrete manifests, one per branch. -/
theorem c2_video_only_failures_witness :
    pickBestVimeoTrackSelection sampleVideoOnlyManifestWithAudio =
      .error remuxRequiredMessage ∧
    pickBestVimeoTrackSelection sampleVideoOnlyManifestNoAudio =
      .error videoOnlyMessage :=
  ⟨(c2_video_only_failures sampleVideoOnlyManifestWithAudio
      (by decide) (by decide) ⟨sampleVideoOnly1080, by decide, by decide⟩
      (by decide)).1 ⟨sampleAudioTrack, by decide, by decide⟩,
   (c2_video_only_failures sampleVideoOnlyManifestNoAudio
      (by decide) (by decide) ⟨sampleVideoOnly1080, by decide, by decide⟩
      (by decide)).2.1 (by decide)⟩

/-! ## Supporting lemmas: playlist scan -/

/-- The loop of `resolveSegmentUrlsFromPlaylistUrl`, characterised: the
segment URLs are the content lines that resolve (in order), and the init URL
is the last directive that resolves — i.e. the first hit when searching the
reversed line list. -/
theorem scanMediaLines_spec (base : String) :
    ∀ (lines acc : List String) (initUrl : String),
      scanMediaLines base lines acc initUrl =
        (acc ++ lines.filterMap (contentSegUrl base),
         (lines.reverse.findSome? (directiveInitUrl base)).getD initUrl) := by
  intro lines
  induction lines with
  | nil => intro acc initUrl; simp [scanMediaLines]
  | cons line rest ih =>
    intro acc initUrl
    by_cases hc : isCommentLine line
    · have hcontent : contentSegUrl base line = none := by simp [contentSegUrl, hc]
      cases hd : directiveInitUrl base line with
      | some u =>
        have := ih acc u
        simp only [scanMediaLines, hc, if_true, hd, this, List.filterMap_cons, hcontent,
          List.reverse_cons, List.findSome?_append]
        cases hrest : rest.reverse.findSome? (directiveInitUrl base) <;>
          simp [List.findSome?, hd]
      | none =>
        have := ih acc initUrl
        simp only [scanMediaLines, hc, if_true, hd, this, List.filterMap_cons, hcontent,
          List.reverse_cons, List.findSome?_append]
        cases hrest : rest.reverse.findSome? (directiveInitUrl base) <;>
          simp [List.findSome?, hd]
    · have hdir : directiveInitUrl base line = none := by simp [directiveInitUrl, hc]
      cases hu : contentSegUrl base line with
      | some u =>
        have := ih (acc ++ [u]) initUrl
        simp only [scanMediaLines, hc, if_false, hu, this, List.filterMap_cons,
          List.reverse_cons, List.findSome?_append, List.append_assoc]
        cases hrest : rest.reverse.findSome? (directiveInitUrl base) <;>
          simp [List.findSome?, hdir]
      | none =>
        have := ih acc initUrl
        simp only [scanMediaLines, hc, if_false, hu, this, List.filterMap_cons,
          List.reverse_cons, List.findSome?_append]
        cases hrest : rest.reverse.findSome? (directiveInitUrl base) <;>
          simp [List.findSome?, hdir]

/-- A resolved init-segment URL always passed the `isHttpUrl` check. -/
theorem directiveInitUrl_isHttp {base l u : String}
    (h : directiveInitUrl base l = some u) : isHttpUrl u = true := by
  unfold directiveInitUrl at h
  split at h
  · cases hx : extXMapUri l with
    | none => simp [hx] at h
    | some uri =>
      simp only [hx] at h
      cases hr : resolveUrl uri base with
      | none => simp [hr] at h
      | some u' =>
        simp only [hr] at h
        split at h
        · next hhttp => cases h; exact hhttp
        · simp at h
  · simp at h

/-- An HTTP(S) URL is a non-empty string (so the loop's accumulated
`initMapUrl` is truthy exactly when a directive resolved). -/
theorem isHttpUrl_ne_empty {u : String} (h : isHttpUrl u = true) : u ≠ "" := by
  intro he
  rw [he] at h
  exact absurd h (by decide)

/-- C5 (counterexample): the init-segment URL is *prepended unconditionally*,
so when a content line resolves to the same URL the resolved list contains it
twice — "exactly once" fails.  Here the `EXT-X-MAP` directive and the single
content line both resolve to `https://h/a/init.ts`. -/
theorem c5_duplicate_init_counterexample :
    resolveSegmentUrlsFromPlaylistUrl
        (fun _ => "#EXT-X-MAP:URI=\"init.ts\"\ninit.ts") "https://h/a/p.m3u8" =
      (1, .ok ["https://h/a/init.ts", "https://h/a/init.ts"]) ∧
    ¬ (["https://h/a/init.ts", "https://h/a/init.ts"].count "https://h/a/init.ts" = 1) :=
  ⟨rfl, by decide⟩

/-- C5 (amended): for every media playlist with at least one
initialization-segment directive whose URI resolves to a valid HTTP(S) URL,
the resolved segment list is exactly that URL — the last such directive in
document order — prepended once to the content-derived segment URLs; it sits
at index 0, and it occurs exactly once in the list provided no content line
independently resolves to the same URL (the counterexample shows a duplicate
otherwise). -/
theorem c5_init_segment_prepended (base : String) (lines pre post : List String)
    (d u : String) (hsplit : lines = pre ++ d :: post)
    (hd : directiveInitUrl base d = some u)
    (hpost : ∀ l ∈ post, directiveInitUrl base l = none) :
    segmentUrlsOfMediaLines base lines = u :: lines.filterMap (contentSegUrl base) ∧
    (segmentUrlsOfMediaLines base lines).head? = some u ∧
    (u ∉ lines.filterMap (contentSegUrl base) →
      (segmentUrlsOfMediaLines base lines).count u = 1) ∧
    resolveMediaPlaylistLines base lines =
      .ok (u :: lines.filterMap (contentSegUrl base)) := by
  have hpostnone : post.reverse.findSome? (directiveInitUrl base) = none :=
    List.findSome?_eq_none_iff.mpr (fun x hx => hpost x (List.mem_reverse.mp hx))
  have hfind : lines.reverse.findSome? (directiveInitUrl base) = some u := by
    rw [hsplit]
    simp [List.findSome?_append, List.findSome?, hpostnone, hd]
  have hne : u ≠ "" := isHttpUrl_ne_empty (directiveInitUrl_isHttp hd)
  have hurls : segmentUrlsOfMediaLines base lines =
      u :: lines.filterMap (contentSegUrl base) := by
    unfold segmentUrlsOfMediaLines
    rw [scanMediaLines_spec base lines [] ""]
    simp [hfind, hne]
  refine ⟨hurls, by rw [hurls]; rfl, ?_, ?_⟩
  · intro hnot
    rw [hurls, List.count_cons_self, List.count_eq_zero.mpr hnot]
  · unfold resolveMediaPlaylistLines
    rw [hurls]
    simp

/-- Witness for C5 (amended) at a concrete playlist with two directives: the
second (`b.mp4`) wins. -/
theorem c5_init_segment_prepended_witness :
    segmentUrlsOfMediaLines "https://h/a/p.m3u8"
        ["#EXT-X-MAP:URI=\"a.mp4\"", "#EXT-X-MAP:URI=\"b.mp4\"", "seg1.ts"] =
      "https://h/a/b.mp4" ::
        (["#EXT-X-MAP:URI=\"a.mp4\"", "#EXT-X-MAP:URI=\"b.mp4\"",
          "seg1.ts"].filterMap (contentSegUrl "https://h/a/p.m3u8")) ∧
    (segmentUrlsOfMediaLines "https://h/a/p.m3u8"
        ["#EXT-X-MAP:URI=\"a.mp4\"", "#EXT-X-MAP:URI=\"b.mp4\"", "seg1.ts"]).head? =
      some "https://h/a/b.mp4" ∧
    ("https://h/a/b.mp4" ∉
        ["#EXT-X-MAP:URI=\"a.mp4\"", "#EXT-X-MAP:URI=\"b.mp4\"",
          "seg1.ts"].filterMap (contentSegUrl "https://h/a/p.m3u8") →
      (segmentUrlsOfMediaLines "https://h/a/p.m3u8"
          ["#EXT-X-MAP:URI=\"a.mp4\"", "#EXT-X-MAP:URI=\"b.mp4\"",
            "seg1.ts"]).count "https://h/a/b.mp4" = 1) ∧
    resolveMediaPlaylistLines "https://h/a/p.m3u8"
        ["#EXT-X-MAP:URI=\"a.mp4\"", "#EXT-X-MAP:URI=\"b.mp4\"", "seg1.ts"] =
      .ok ("https://h/a/b.mp4" ::
        (["#EXT-X-MAP:URI=\"a.mp4\"", "#EXT-X-MAP:URI=\"b.mp4\"",
          "seg1.ts"].filterMap (contentSegUrl "https://h/a/p.m3u8"))) :=
  c5_init_segment_prepended "https://h/a/p.m3u8"
    ["#EXT-X-MAP:URI=\"a.mp4\"", "#EXT-X-MAP:URI=\"b.mp4\"", "seg1.ts"]
    ["#EXT-X-MAP:URI=\"a.mp4\""] ["seg1.ts"]
    "#EXT-X-MAP:URI=\"b.mp4\"" "https://h/a/b.mp4"
    rfl (by decide) (by decide)

/-- C6 (counterexample): when the fetched master body has no content line at
all (hence no segment-like line), the resolver stops after a single fetch with
an error — the claimed "otherwise it performs exactly two fetches" fails. -/
theorem c6_master_without_pointer_counterexample :
    (splitPlaylistLines "#EXTM3U").any
        (fun line => !isCommentLine line && isLikelySegmentLine line) = false ∧
    resolveSegmentUrlsFromPlaylistUrl (fun _ => "#EXTM3U") "https://h/a/b.m3u8" =
      (1, .error "Playlist does not contain a media playlist reference.") ∧
    (1 : Nat) ≠ 2 :=
  ⟨by decide, rfl, by decide⟩

/-- C6 (amended): one fetch when the body has a direct segment-like line (the
playlist's own URL is the resolution base); otherwise, provided the master has
a content line whose resolution against the master URL is a valid HTTP(S)
URL, exactly two fetches, and the media-level lines are resolved against the
media playlist's URL, not the master's; when no such pointer exists the
resolver fails after the single fetch.  The frozen example resolves as
claimed. -/
theorem c6_fetch_counts (fetchTextEnv : String → String) (playlistUrl : String) :
    ((splitPlaylistLines (fetchTextEnv playlistUrl)).any
        (fun line => !isCommentLine line && isLikelySegmentLine line) = true →
      resolveSegmentUrlsFromPlaylistUrl fetchTextEnv playlistUrl =
        (1, resolveMediaPlaylistLines playlistUrl
              (splitPlaylistLines (fetchTextEnv playlistUrl)))) ∧
    (∀ tail mediaPlaylistUrl,
      (splitPlaylistLines (fetchTextEnv playlistUrl)).any
        (fun line => !isCommentLine line && isLikelySegmentLine line) = false →
      getLastContentLine (splitPlaylistLines (fetchTextEnv playlistUrl)) = some tail →
      resolveUrl tail playlistUrl = some mediaPlaylistUrl →
      isHttpUrl mediaPlaylistUrl = true →
      resolveSegmentUrlsFromPlaylistUrl fetchTextEnv playlistUrl =
        (2, resolveMediaPlaylistLines mediaPlaylistUrl
              (splitPlaylistLines (fetchTextEnv mediaPlaylistUrl)))) ∧
    resolveSegmentUrlsFromPlaylistUrl (fun _ => "#EXTM3U\nseg0.ts\nseg1.ts\n")
        "https://h/a/b.m3u8" =
      (1, .ok ["https://h/a/seg0.ts", "https://h/a/seg1.ts"]) := by
  refine ⟨?_, ?_, rfl⟩
  · intro h
    unfold resolveSegmentUrlsFromPlaylistUrl
    simp only [h, if_true]
  · intro tail mediaPlaylistUrl h htail hres hhttp
    unfold resolveSegmentUrlsFromPlaylistUrl
    simp only [h, Bool.false_eq_true, if_false, htail, hres, hhttp, if_true]

/-- Witness for C6 at a concrete two-level playlist: two fetches, media lines
resolved against the media playlist's URL. -/
theorem c6_fetch_counts_witness :
    resolveSegmentUrlsFromPlaylistUrl
        (fun u => if u = "https://h/a/master.m3u8" then "#EXTM3U\nmedia/low.m3u8"
                  else "#EXTM3U\ns1.ts\ns2.ts")
        "https://h/a/master.m3u8" =
      (2, resolveMediaPlaylistLines "https://h/a/media/low.m3u8"
            (splitPlaylistLines
              ((fun u => if u = "https://h/a/master.m3u8" then "#EXTM3U\nmedia/low.m3u8"
                         else "#EXTM3U\ns1.ts\ns2.ts") "https://h/a/media/low.m3u8"))) :=
  (c6_fetch_counts
      (fun u => if u = "https://h/a/master.m3u8" then "#EXTM3U\nmedia/low.m3u8"
                else "#EXTM3U\ns1.ts\ns2.ts")
      "https://h/a/master.m3u8").2.1
    "media/low.m3u8" "https://h/a/media/low.m3u8"
    (by decide) (by decide) (by decide) (by decide)

/-- C10: a media playlist none of whose content lines resolves to an absolute
HTTP(S) URL, but with an initialization-segment directive that does resolve,
does not hit the empty-list error: the emptiness check runs after the init
segment is prepended, so the result is the one-element list holding only the
init-segment URL. -/
theorem c10_init_only_media_playlist (base : String) (lines : List String)
    (hcontent : ∀ l ∈ lines, contentSegUrl base l = none)
    (hinit : ∃ l ∈ lines, (directiveInitUrl base l).isSome) :
    ∃ u, (∃ l ∈ lines, directiveInitUrl base l = some u) ∧
      segmentUrlsOfMediaLines base lines = [u] ∧
      resolveMediaPlaylistLines base lines = .ok [u] := by
  have hfm : lines.filterMap (contentSegUrl base) = [] :=
    List.filterMap_eq_nil_iff.mpr hcontent
  cases hfind : lines.reverse.findSome? (directiveInitUrl base) with
  | none =>
    exfalso
    obtain ⟨l, hl, hsome⟩ := hinit
    have := List.findSome?_eq_none_iff.mp hfind l (List.mem_reverse.mpr hl)
    rw [this] at hsome
    simp at hsome
  | some u =>
    obtain ⟨l, hl, hlu⟩ := List.exists_of_findSome?_eq_some hfind
    have hne : u ≠ "" := isHttpUrl_ne_empty (directiveInitUrl_isHttp hlu)
    have hurls : segmentUrlsOfMediaLines base lines = [u] := by
      unfold segmentUrlsOfMediaLines
      rw [scanMediaLines_spec base lines [] ""]
      simp [hfind, hfm, hne]
    refine ⟨u, ⟨l, List.mem_reverse.mp hl, hlu⟩, hurls, ?_⟩
    unfold resolveMediaPlaylistLines
    rw [hurls]
    simp

/-- Witness for C10 at a concrete playlist: the only content line resolves to
a non-HTTP URL and is discarded, yet resolution succeeds with the init-segment
URL alone. -/
theorem c10_init_only_media_playlist_witness :
    ∃ u, (∃ l ∈ ["#EXT-X-MAP:URI=\"init.mp4\"", "ftp://x/a.ts"],
        directiveInitUrl "https://h/a/p.m3u8" l = some u) ∧
      segmentUrlsOfMediaLines "https://h/a/p.m3u8"
        ["#EXT-X-MAP:URI=\"init.mp4\"", "ftp://x/a.ts"] = [u] ∧
      resolveMediaPlaylistLines "https://h/a/p.m3u8"
        ["#EXT-X-MAP:URI=\"init.mp4\"", "ftp://x/a.ts"] = .ok [u] :=
  c10_init_only_media_playlist "https://h/a/p.m3u8"
    ["#EXT-X-MAP:URI=\"init.mp4\"", "ftp://x/a.ts"]
    (by decide)
    ⟨"#EXT-X-MAP:URI=\"init.mp4\"", by decide, by decide⟩

/-! ## Supporting lemmas: filename sanitisation -/

theorem mem_collapseWsAux : ∀ (b : Bool) (cs : List Char) (c : Char),
    c ∈ collapseWsAux b cs → c = ' ' ∨ c ∈ cs := by
  intro b cs
  induction cs generalizing b with
  | nil => intro c hc; simp [collapseWsAux] at hc
  | cons x rest ih =>
    intro c hc
    by_cases hx : isJsWs x
    · cases b with
      | true =>
        simp [collapseWsAux, hx] at hc
        rcases ih true c hc with h | h
        · exact Or.inl h
        · exact Or.inr (List.mem_cons_of_mem _ h)
      | false =>
        simp [collapseWsAux, hx] at hc
        rcases hc with rfl | hc
        · exact Or.inl rfl
        · rcases ih true c hc with h | h
          · exact Or.inl h
          · exact Or.inr (List.mem_cons_of_mem _ h)
    · simp [collapseWsAux, hx] at hc
      rcases hc with rfl | hc
      · exact Or.inr (List.mem_cons_self _ _)
      · rcases ih false c hc with h | h
        · exact Or.inl h
        · exact Or.inr (List.mem_cons_of_mem _ h)

/-- After a whitespace run was just collapsed, the next emitted character is
not whitespace. -/
theorem collapseWsAux_true_head : ∀ (cs : List Char) (c : Char),
    (collapseWsAux true cs).head? = some c → isJsWs c = false := by
  intro cs
  induction cs with
  | nil => intro c hc; simp [collapseWsAux] at hc
  | cons x rest ih =>
    intro c hc
    by_cases hx : isJsWs x
    · simp only [collapseWsAux, hx, if_true, List.nil_append] at hc
      exact ih c hc
    · simp only [collapseWsAux, hx, if_false, List.head?_cons, Option.some.injEq,
        Bool.false_eq_true] at hc
      rw [← hc]
      exact Bool.eq_false_iff.mpr hx

/-- No two adjacent whitespace characters survive the collapse. -/
theorem chain'_collapseWsAux : ∀ (b : Bool) (cs : List Char),
    List.Chain' (fun a c => isJsWs a = false ∨ isJsWs c = false) (collapseWsAux b cs) := by
  intro b cs
  induction cs generalizing b with
  | nil => simp [collapseWsAux]
  | cons x rest ih =>
    by_cases hx : isJsWs x
    · cases b with
      | true => simpa [collapseWsAux, hx] using ih true
      | false =>
        have hgoal : collapseWsAux false (x :: rest) = ' ' :: collapseWsAux true rest := by
          simp [collapseWsAux, hx]
        rw [hgoal, List.chain'_cons']
        exact ⟨fun y hy => Or.inr (collapseWsAux_true_head rest y hy), ih true⟩
    · have hgoal : collapseWsAux b (x :: rest) = x :: collapseWsAux false rest := by
        simp [collapseWsAux, hx]
      rw [hgoal, List.chain'_cons']
      exact ⟨fun y _ => Or.inl (Bool.eq_false_iff.mpr hx), ih false⟩

theorem chain'_dropWhile {R : α → α → Prop} {p : α → Bool} :
    ∀ {l : List α}, List.Chain' R l → List.Chain' R (l.dropWhile p) := by
  intro l
  induction l with
  | nil => intro h; exact h
  | cons x rest ih =>
    intro h
    by_cases hx : p x
    · rw [List.dropWhile_cons_of_pos hx]
      exact ih (List.chain'_cons'.mp h).2
    · rwa [List.dropWhile_cons_of_neg (by simpa using hx)]

/-- The adjacency relation used for collapsed whitespace is symmetric, so it
transports across `reverse`. -/
theorem chain'_reverse_ws {l : List Char}
    (h : List.Chain' (fun a c => isJsWs a = false ∨ isJsWs c = false) l) :
    List.Chain' (fun a c => isJsWs a = false ∨ isJsWs c = false) l.reverse := by
  rw [List.chain'_reverse]
  exact h.imp (fun {a c} hac => Or.symm hac)

theorem chain'_jsTrimChars {cs : List Char}
    (h : List.Chain' (fun a c => isJsWs a = false ∨ isJsWs c = false) cs) :
    List.Chain' (fun a c => isJsWs a = false ∨ isJsWs c = false) (jsTrimChars cs) := by
  unfold jsTrimChars
  exact chain'_reverse_ws (chain'_dropWhile (chain'_reverse_ws (chain'_dropWhile h)))

theorem mem_jsTrimChars {cs : List Char} {c : Char} (h : c ∈ jsTrimChars cs) : c ∈ cs := by
  unfold jsTrimChars at h
  rw [List.mem_reverse] at h
  have h2 := (List.dropWhile_sublist isJsWs).mem h
  rw [List.mem_reverse] at h2
  exact (List.dropWhile_sublist isJsWs).mem h2

theorem toList_mk (l : List Char) : (String.mk l).toList = l := rfl

/-- Characters of a sanitized file part are never filesystem-illegal. -/
theorem sanitizeFilePart_no_illegal (s : String) :
    ∀ c ∈ (sanitizeFilePart s).toList, isIllegalFilenameChar c = false := by
  intro c hc
  unfold sanitizeFilePart at hc
  rw [toList_mk] at hc
  have hmem := mem_jsTrimChars hc
  rcases mem_collapseWsAux false _ c hmem with rfl | hmap
  · decide
  · obtain ⟨x, _, hx⟩ := List.mem_map.mp hmap
    by_cases hill : isIllegalFilenameChar x
    · simp [hill] at hx
      rw [← hx]
      decide
    · simp [hill] at hx
      rw [← hx]
      exact Bool.eq_false_iff.mpr hill

/-- Whitespace runs are collapsed: the sanitized string never has two adjacent
whitespace characters. -/
theorem sanitizeFilePart_collapsed (s : String) :
    List.Chain' (fun a c => isJsWs a = false ∨ isJsWs c = false)
      (sanitizeFilePart s).toList := by
  unfold sanitizeFilePart
  rw [toList_mk]
  exact chain'_jsTrimChars (chain'_collapseWsAux false _)

theorem takeChars_length_le (s : String) (n : Nat) : (takeChars s n).length ≤ n := by
  have : (takeChars s n).length = (s.toList.take n).length := rfl
  rw [this]
  exact List.length_take_le n s.toList

/-- C9: filename construction is a pure function of (title, source URL,
extension).  The output is `<name>.<ext>`, where: the name part is at most 180
characters, never empty, and is the sanitized composition
`"<title> <token>"` when the sanitized title is non-empty and just the
identity-derived token otherwise; the extension defaults to `ts` when none was
determined; and sanitisation strips every filesystem-illegal character and
collapses whitespace runs. -/
theorem c9_filename_construction :
    (∀ urlString lessonTitle fileExtension : String,
      ∃ nm ext : String,
        buildDownloadFilename urlString lessonTitle fileExtension = nm ++ "." ++ ext ∧
        nm.length ≤ 180 ∧ nm ≠ "" ∧ ext ≠ "" ∧
        (fileExtension = "" → ext = "ts") ∧
        (sanitizeFilePart lessonTitle = "" →
          nm = (if takeChars (sanitizeFilePart (filenameVideoToken urlString)) 180 = ""
                then "video"
                else takeChars (sanitizeFilePart (filenameVideoToken urlString)) 180)) ∧
        (sanitizeFilePart lessonTitle ≠ "" →
          nm = (if takeChars (sanitizeFilePart
                    (sanitizeFilePart lessonTitle ++ " " ++ filenameVideoToken urlString))
                    180 = ""
                then "video"
                else takeChars (sanitizeFilePart
                    (sanitizeFilePart lessonTitle ++ " " ++ filenameVideoToken urlString))
                    180))) ∧
    (∀ s : String,
      (∀ c ∈ (sanitizeFilePart s).toList, isIllegalFilenameChar c = false) ∧
      List.Chain' (fun a c => isJsWs a = false ∨ isJsWs c = false)
        (sanitizeFilePart s).toList) := by
  constructor
  · intro urlString lessonTitle fileExtension
    refine ⟨downloadFilenameBase urlString lessonTitle,
      downloadFilenameExt fileExtension, rfl, ?_, ?_, ?_, ?_, ?_, ?_⟩
    · simp only [downloadFilenameBase]
      split_ifs <;> first | decide | apply takeChars_length_le
    · simp only [downloadFilenameBase]
      split_ifs <;> first | decide | assumption
    · simp only [downloadFilenameExt]
      split_ifs <;> first | decide | assumption
    · intro h
      rw [h]
      rfl
    · intro h
      simp [downloadFilenameBase, h]
    · intro h
      simp [downloadFilenameBase, h]
  · intro s
    exact ⟨sanitizeFilePart_no_illegal s, sanitizeFilePart_collapsed s⟩

/-- Witness for C9 at concrete inputs: a titled custom-playlist download and a
Vimeo download without title or extension. -/
theorem c9_filename_construction_witness :
    buildDownloadFilename
        "https://cdn.example/api/playlist/media/abc/def/720?user-id=1"
        "My  Lesson: Part/1" "" = "My Lesson Part 1 def.ts" ∧
    buildDownloadFilename "https://player.vimeo.com/video/42" "" ".mp4" = "42.mp4" ∧
    (∃ nm ext : String,
      buildDownloadFilename "https://player.vimeo.com/video/42" "" ".mp4" =
        nm ++ "." ++ ext ∧
      nm.length ≤ 180 ∧ nm ≠ "" ∧ ext ≠ "" ∧
      (".mp4" = ("" : String) → ext = "ts") ∧
      (sanitizeFilePart "" = "" →
        nm = (if takeChars (sanitizeFilePart
                  (filenameVideoToken "https://player.vimeo.com/video/42")) 180 = ""
              then "video"
              else takeChars (sanitizeFilePart
                  (filenameVideoToken "https://player.vimeo.com/video/42")) 180)) ∧
      (sanitizeFilePart "" ≠ "" →
        nm = (if takeChars (sanitizeFilePart (sanitizeFilePart "" ++ " " ++
                  filenameVideoToken "https://player.vimeo.com/video/42")) 180 = ""
              then "video"
              else takeChars (sanitizeFilePart (sanitizeFilePart "" ++ " " ++
                  filenameVideoToken "https://player.vimeo.com/video/42")) 180))) :=
  ⟨by decide, by decide,
   c9_filename_construction.1 "https://player.vimeo.com/video/42" "" ".mp4"⟩

end GVD
